import Mathlib

/-!
Verification of the PlanBox daily-planner core: a shallow embedding of the
planner API (daily planners, brain-dump items, top priorities, time blocks)
and of the client-side drag-and-drop reconciliation logic, with theorems
about reference reconciliation, upsert semantics, error handling and the
time-string utilities.

Conventions of the embedding:
- Supabase/PostgREST tables are lists of rows; a query's `.eq` filter is
  `List.filter`, `.order` is `List.mergeSort`, `.single()` data/error pairs
  and thrown JS errors are `Option`/`Except`.
- JavaScript string operations (`split`, `Number`, `padStart`) are embedded
  as structural functions on `List Char` so that they evaluate.
- Row ids generated by the database are passed in as explicit arguments.
-/

-- ============================================
-- DATA MODEL (rows of the four tables)
-- ============================================

structure BrainDumpItem where
  id : String
  planner_id : String
  user_id : String
  text : String
  is_completed : Bool
  is_priority : Bool
  is_scheduled : Bool
  order_index : Int
deriving DecidableEq

structure TopPriority where
  id : String
  planner_id : String
  user_id : String
  priority_slot : Nat
  brain_dump_item_id : Option String
  custom_text : Option String
  is_completed : Bool
deriving DecidableEq

structure TimeBlock where
  id : String
  planner_id : String
  user_id : String
  start_time : String
  end_time : String
  brain_dump_item_id : Option String
  custom_text : Option String
  color_tag : String
  notes : Option String
  is_completed : Bool
deriving DecidableEq

structure DailyPlanner where
  id : String
  user_id : String
  planner_date : String
deriving DecidableEq

/-- A PostgREST error object: `error.code` and `error.message`. -/
structure DbError where
  code : String
  message : String
deriving DecidableEq

-- ============================================
-- TIME UTILITIES (src/unnamed/part_001, lib/utils)
-- ============================================

/-- JavaScript `str.split(sep)` for a single-character separator, on the
character list of the string. -/
def jsSplitAux (sep : Char) : List Char → List Char → List String
  | [], acc => [String.mk acc.reverse]
  | c :: cs, acc =>
    if c = sep then String.mk acc.reverse :: jsSplitAux sep cs []
    else jsSplitAux sep cs (c :: acc)

/-- JavaScript `str.split(sep)`. -/
def jsSplit (s : String) (sep : Char) : List String :=
  jsSplitAux sep s.data []

/-- Value of a decimal digit character, `none` otherwise. -/
def jsDigit (c : Char) : Option Nat :=
  if ('0') ≤ c ∧ c ≤ ('9') then some (c.toNat - 48) else none

/-- JavaScript `Number(s)` restricted to nonnegative decimal integers:
a digits-only string parses to its value, anything else is NaN (`none`). -/
def jsNumberNat (s : String) : Option Nat :=
  s.data.foldl (fun acc c => do
    let a ← acc
    let d ← jsDigit c
    pure (a * 10 + d)) (some 0)

/-- JavaScript `String(n).padStart(2, '0')`. -/
def pad2 (n : Nat) : String :=
  let s := toString n
  if s.length ≥ 2 then s else ("0") ++ s

/-- `timeToMinutes` from the utils module: splits on the colon, converts the
first two fields with `Number`, and returns hours * 60 + minutes.  A field
that is not a number makes the whole result NaN (`none`). -/
def timeToMinutes (time : String) : Option Nat :=
  match jsSplit time (':') with
  | h :: m :: _ => do
    let hv ← jsNumberNat h
    let mv ← jsNumberNat m
    pure (hv * 60 + mv)
  | _ => none

/-- `minutesToTime` from the utils module: converts minutes since midnight to
an `HH:MM:00` string with two-digit zero-padded fields. -/
def minutesToTime (minutes : Nat) : String :=
  let hours := minutes / 60
  let mins := minutes % 60
  pad2 hours ++ (":") ++ pad2 mins ++ (":00")

/-- `addMinutes` from the utils module. -/
def addMinutes (time : String) (minutes : Nat) : Option String := do
  let totalMinutes ← timeToMinutes time
  pure (minutesToTime (totalMinutes + minutes))

/-- `getDuration` from the utils module (minutes between two times). -/
def getDuration (startTime endTime : String) : Option Int := do
  let s ← timeToMinutes startTime
  let e ← timeToMinutes endTime
  pure ((e : Int) - (s : Int))

/-- `hasTimeOverlap` from the utils module: whether `[newStart, newEnd)`
overlaps any existing block.  With an unparsable time every JavaScript
comparison is false, hence `false` here as well. -/
def hasTimeOverlap (newStart newEnd : String) (existingBlocks : List TimeBlock) : Bool :=
  match timeToMinutes newStart, timeToMinutes newEnd with
  | some newStartMin, some newEndMin =>
    existingBlocks.any (fun block =>
      match timeToMinutes block.start_time, timeToMinutes block.end_time with
      | some blockStartMin, some blockEndMin =>
        (newStartMin ≥ blockStartMin ∧ newStartMin < blockEndMin) ∨
        (newEndMin > blockStartMin ∧ newEndMin ≤ blockEndMin) ∨
        (newStartMin ≤ blockStartMin ∧ newEndMin ≥ blockEndMin)
      | _, _ => false)
  | _, _ => false

-- ============================================
-- GET OR CREATE PLANNER (planner-api getOrCreatePlanner)
-- ============================================

/-- The store interactions one call to `getOrCreatePlanner` performs, in
order: the authenticated user, the first `select ... single()`, the
`insert ... single()` outcome, and the re-read performed after a duplicate
key error (its data and its error). -/
structure GetOrCreateEnv where
  userId : Option String
  firstRead : Option DailyPlanner
  insertResult : Except DbError DailyPlanner
  retryRead : Option DailyPlanner
  retryReadError : Option DbError

/-- `getOrCreatePlanner`: return the existing row if the first read finds
one; otherwise insert; a duplicate-key insert failure (PostgreSQL code
23505) is handled by re-reading, any other insert failure is thrown. -/
def getOrCreatePlanner (env : GetOrCreateEnv) : Except String DailyPlanner :=
  match env.userId with
  | none => .error ("Unauthorized")
  | some _ =>
    match env.firstRead with
    | some existingPlanner => .ok existingPlanner
    | none =>
      match env.insertResult with
      | .ok newPlanner => .ok newPlanner
      | .error e =>
        if e.code == ("23505") then
          match env.retryReadError, env.retryRead with
          | none, some retryPlanner => .ok retryPlanner
          | _, _ => .error ("Failed to get planner after retry")
        else .error (("Failed to create planner: ") ++ e.message)

-- ============================================
-- CLAIM C10: time conversion round trip
-- ============================================

set_option maxHeartbeats 4000000 in
set_option maxRecDepth 8000 in
theorem timeToMinutes_minutesToTime_fin : ∀ h : Fin 24, ∀ m : Fin 60,
    timeToMinutes (minutesToTime (h.val * 60 + m.val)) = some (h.val * 60 + m.val) := by
  decide

/-- C10: for every minutes-since-midnight value below 1440, converting to an
`HH:MM:00` time string with `minutesToTime` and back with `timeToMinutes`
returns the original value. -/
theorem c10_time_roundtrip (m : Nat) (hm : m < 1440) :
    timeToMinutes (minutesToTime m) = some m := by
  have h1 : m / 60 < 24 := by omega
  have h2 : m % 60 < 60 := Nat.mod_lt _ (by omega)
  have key := timeToMinutes_minutesToTime_fin ⟨m / 60, h1⟩ ⟨m % 60, h2⟩
  have hdm : m / 60 * 60 + m % 60 = m := by omega
  rw [hdm] at key
  exact key

/-- C10 witness: the round trip at 570 minutes (09:30). -/
theorem c10_time_roundtrip_witness :
    570 < 1440 ∧ timeToMinutes (minutesToTime 570) = some 570 :=
  ⟨by decide, c10_time_roundtrip 570 (by decide)⟩

-- ============================================
-- CLAIM C2: get-or-create race handling
-- ============================================

/-- C2: `getOrCreatePlanner` returns the row found by the first read when
one exists; otherwise it inserts and returns the inserted row; an insert
failure with the duplicate-key code 23505 is treated as success by
re-reading (and only surfaces an error when the re-read itself fails or
finds nothing); any insert failure with a different code is surfaced. -/
theorem c2_get_or_create_planner_race (env : GetOrCreateEnv) (u : String)
    (hu : env.userId = some u) :
    (∀ p, env.firstRead = some p → getOrCreatePlanner env = .ok p) ∧
    (∀ p, env.firstRead = none → env.insertResult = .ok p →
      getOrCreatePlanner env = .ok p) ∧
    (∀ e p, env.firstRead = none → env.insertResult = .error e →
      e.code = ("23505") → env.retryReadError = none → env.retryRead = some p →
      getOrCreatePlanner env = .ok p) ∧
    (∀ e, env.firstRead = none → env.insertResult = .error e →
      e.code = ("23505") → (env.retryReadError ≠ none ∨ env.retryRead = none) →
      getOrCreatePlanner env = .error ("Failed to get planner after retry")) ∧
    (∀ e, env.firstRead = none → env.insertResult = .error e →
      e.code ≠ ("23505") →
      getOrCreatePlanner env = .error (("Failed to create planner: ") ++ e.message)) := by
  refine ⟨?_, ?_, ?_, ?_, ?_⟩
  · intro p hp
    simp [getOrCreatePlanner, hu, hp]
  · intro p hr hi
    simp [getOrCreatePlanner, hu, hr, hi]
  · intro e p hr hi hc hre hrp
    simp [getOrCreatePlanner, hu, hr, hi, hc, hre, hrp]
  · intro e hr hi hc hbad
    rcases hbad with hbad | hbad
    · rcases hre : env.retryReadError with _ | e2
      · exact absurd hre hbad
      · simp [getOrCreatePlanner, hu, hr, hi, hc, hre]
    · rcases hre : env.retryReadError with _ | e2
      · simp [getOrCreatePlanner, hu, hr, hi, hc, hre, hbad]
      · simp [getOrCreatePlanner, hu, hr, hi, hc, hre]
  · intro e hr hi hc
    have hc' : (e.code == ("23505")) = false := by
      simpa [beq_iff_eq] using hc
    simp [getOrCreatePlanner, hu, hr, hi, hc']

/-- C2 witness: the race path at a concrete environment. The first read is
empty, the insert fails with code 23505, and the re-read succeeds, so the
call returns the re-read row. -/
theorem c2_get_or_create_planner_race_witness :
    getOrCreatePlanner
      { userId := some ("user_1"), firstRead := none,
        insertResult := .error { code := ("23505"), message := ("dup") },
        retryRead := some { id := ("pl1"), user_id := ("user_1"), planner_date := ("2025-06-01") },
        retryReadError := none } =
      .ok { id := ("pl1"), user_id := ("user_1"), planner_date := ("2025-06-01") } := by
  exact (c2_get_or_create_planner_race _ ("user_1") rfl).2.2.1 _ _ rfl rfl rfl rfl rfl

-- ============================================
-- REORDER BRAIN DUMP ITEMS (planner-api reorderBrainDumpItems)
-- ============================================

/-- `reorderBrainDumpItems`: one `update ... eq id` per `(id, order_index)`
pair, issued together; the store's per-row outcomes are `updateResult`.
The failed responses are collected and, when any update failed, a single
fixed error is thrown. -/
def reorderBrainDumpItems (items : List (String × Int))
    (updateResult : String → Option DbError) : Except String Unit :=
  let results := items.map (fun item => updateResult item.1)
  let errors := results.filter (fun r => r.isSome)
  if errors.length > 0 then .error ("Failed to reorder brain dump items")
  else .ok ()

/-- A store in which only the update of item `item_a` fails. -/
def failOnlyA : String → Option DbError :=
  fun i => if i == ("item_a") then some { code := ("500"), message := ("update failed") } else none

/-- A store in which only the update of item `item_b` fails. -/
def failOnlyB : String → Option DbError :=
  fun i => if i == ("item_b") then some { code := ("500"), message := ("update failed") } else none

/-- C5 counterexample: reordering two items where only `item_a` fails and
reordering where only `item_b` fails produce the same fixed error value, so
the error cannot list the ids of the failed items and callers cannot tell
which items were not reordered. -/
theorem c5_reorder_counterexample :
    reorderBrainDumpItems [(("item_a"), 0), (("item_b"), 1)] failOnlyA =
      .error ("Failed to reorder brain dump items") ∧
    reorderBrainDumpItems [(("item_a"), 0), (("item_b"), 1)] failOnlyA =
      reorderBrainDumpItems [(("item_a"), 0), (("item_b"), 1)] failOnlyB :=
  ⟨rfl, rfl⟩

/-- C5 (amended): `reorderBrainDumpItems` succeeds iff every individual
update succeeded, and any failure is reported as a single fixed aggregate
error that does not identify the failed ids. -/
theorem c5_reorder_aggregate_error (items : List (String × Int))
    (updateResult : String → Option DbError) :
    (reorderBrainDumpItems items updateResult = .ok () ↔
      ∀ it ∈ items, updateResult it.1 = none) ∧
    (reorderBrainDumpItems items updateResult ≠ .ok () →
      reorderBrainDumpItems items updateResult =
        .error ("Failed to reorder brain dump items")) := by
  by_cases h :
      ((items.map (fun item => updateResult item.1)).filter (fun r => r.isSome)).length > 0
  · constructor
    · rw [reorderBrainDumpItems, if_pos h]
      constructor
      · intro hcontra
        exact absurd hcontra (by simp)
      · intro hall
        obtain ⟨r, hr⟩ := List.exists_mem_of_length_pos h
        rw [List.mem_filter] at hr
        obtain ⟨hrm, hrs⟩ := hr
        rw [List.mem_map] at hrm
        obtain ⟨it, hit, hrit⟩ := hrm
        rw [hall it hit] at hrit
        rw [← hrit] at hrs
        simp at hrs
    · intro _
      rw [reorderBrainDumpItems, if_pos h]
  · constructor
    · rw [reorderBrainDumpItems, if_neg h]
      constructor
      · intro _ it hit
        have hlen : ((items.map (fun item => updateResult item.1)).filter
            (fun r => r.isSome)).length = 0 := by omega
        rw [List.length_eq_zero] at hlen
        by_contra hne
        have hmem : updateResult it.1 ∈
            (items.map (fun item => updateResult item.1)).filter (fun r => r.isSome) := by
          rw [List.mem_filter]
          refine ⟨List.mem_map_of_mem _ hit, ?_⟩
          cases hcase : updateResult it.1 with
          | none => exact absurd hcase hne
          | some e => simp
        rw [hlen] at hmem
        exact absurd hmem (List.not_mem_nil _)
      · intro _
        rfl
    · intro hne
      rw [reorderBrainDumpItems, if_neg h] at hne
      exact absurd rfl hne

/-- C5 witness: the amended theorem at a store where every update succeeds. -/
theorem c5_reorder_aggregate_error_witness :
    reorderBrainDumpItems [(("item_a"), 0), (("item_b"), 1)] (fun _ => none) = .ok () :=
  (c5_reorder_aggregate_error [(("item_a"), 0), (("item_b"), 1)] (fun _ => none)).1.mpr
    (fun _ _ => rfl)

-- ============================================
-- REORDER PRIORITY SLOTS (planner-api reorderPrioritySlots)
-- ============================================

/-- One entry of the slot mapping passed to `reorderPrioritySlots`. -/
structure SlotMapping where
  id : String
  newSlot : Nat
deriving DecidableEq

/-- One of the independent single-row updates issued by
`reorderPrioritySlots`: set `priority_slot` on the row matching
`(id, planner_id, user_id)`. -/
def applySlotUpdate (rows : List TopPriority) (plannerId uid : String)
    (m : SlotMapping) : List TopPriority :=
  rows.map (fun r =>
    if r.id == m.id && r.planner_id == plannerId && r.user_id == uid then
      { r with priority_slot := m.newSlot }
    else r)

/-- `reorderPrioritySlots`: the slot updates are issued as independent
per-row writes (`Promise.all` of single-row updates, no transaction); the
store passes through the states of this fold one update at a time. -/
def reorderPrioritySlots (rows : List TopPriority) (plannerId uid : String)
    (slotMapping : List SlotMapping) : List TopPriority :=
  slotMapping.foldl (fun acc m => applySlotUpdate acc plannerId uid m) rows

/-- The slot-uniqueness invariant: no two Priority rows share a
`(planner_id, priority_slot)` pair. -/
def prioritySlotUnique (rows : List TopPriority) : Prop :=
  rows.Pairwise (fun a b => ¬(a.planner_id = b.planner_id ∧ a.priority_slot = b.priority_slot))

/-- Slot-1 priority row used in the C6 counterexample. -/
def prioRowA : TopPriority :=
  { id := ("pr1"), planner_id := ("pl1"), user_id := ("u1"), priority_slot := 1,
    brain_dump_item_id := some ("item_a"), custom_text := none, is_completed := false }

/-- Slot-2 priority row used in the C6 counterexample. -/
def prioRowB : TopPriority :=
  { id := ("pr2"), planner_id := ("pl1"), user_id := ("u1"), priority_slot := 2,
    brain_dump_item_id := some ("item_b"), custom_text := none, is_completed := false }

/-- C6 counterexample: swapping the two occupied slots is two independent
row updates; after only the first update has been applied the store holds
two Priority rows on slot 2, so an intermediate state violating slot
uniqueness is visible (the updates are not applied atomically). -/
theorem c6_reorder_slots_counterexample :
    prioritySlotUnique [prioRowA, prioRowB] ∧
    ¬ prioritySlotUnique
      (applySlotUpdate [prioRowA, prioRowB] ("pl1") ("u1") { id := ("pr1"), newSlot := 2 }) ∧
    reorderPrioritySlots [prioRowA, prioRowB] ("pl1") ("u1")
        [{ id := ("pr1"), newSlot := 2 }, { id := ("pr2"), newSlot := 1 }] =
      [{ prioRowA with priority_slot := 2 }, { prioRowB with priority_slot := 1 }] := by
  refine ⟨?_, ?_, rfl⟩
  · simp [prioritySlotUnique, prioRowA, prioRowB]
  · intro hcontra
    rw [prioritySlotUnique] at hcontra
    simp [applySlotUpdate, prioRowA, prioRowB] at hcontra

/-- C6 (amended): `reorderPrioritySlots` applies the two updates of a swap
as independent per-row writes.  The combined effect exchanges the two rows'
slot numbers and leaves every other row untouched (no row is created or
deleted), but the updates are not applied together: the intermediate state
after only the first write has both rows on the same slot, violating slot
uniqueness, and is passed through the store. -/
theorem c6_reorder_slots_sequential (rows : List TopPriority) (pid uid id1 id2 : String)
    (slotA slotB : Nat) (r1 r2 : TopPriority)
    (h12 : id1 ≠ id2)
    (hr1 : r1 ∈ rows) (hr2 : r2 ∈ rows)
    (hid1 : r1.id = id1) (hid2 : r2.id = id2)
    (hp1 : r1.planner_id = pid) (hp2 : r2.planner_id = pid)
    (hu1 : r1.user_id = uid) (hu2 : r2.user_id = uid)
    (hs2 : r2.priority_slot = slotB) :
    reorderPrioritySlots rows pid uid
        [{ id := id1, newSlot := slotB }, { id := id2, newSlot := slotA }] =
      rows.map (fun r =>
        if r.id == id1 && r.planner_id == pid && r.user_id == uid then
          { r with priority_slot := slotB }
        else if r.id == id2 && r.planner_id == pid && r.user_id == uid then
          { r with priority_slot := slotA }
        else r) ∧
    ¬ prioritySlotUnique (applySlotUpdate rows pid uid { id := id1, newSlot := slotB }) := by
  constructor
  · show applySlotUpdate (applySlotUpdate rows pid uid _) pid uid _ = _
    rw [applySlotUpdate, applySlotUpdate, List.map_map]
    refine List.map_congr_left ?_
    intro r _
    simp only [Function.comp]
    cases hb1 : (r.id == id1 && r.planner_id == pid && r.user_id == uid) with
    | true =>
      simp only [Bool.and_eq_true, beq_iff_eq] at hb1
      obtain ⟨⟨hxid, hxp⟩, hxu⟩ := hb1
      have hnid2 : (id1 == id2) = false := by
        rw [beq_eq_false_iff_ne]
        exact h12
      simp [hxid, hxp, hxu, hnid2]
    | false =>
      simp only [hb1, Bool.false_eq_true, if_false]
  · intro hP
    rw [prioritySlotUnique] at hP
    have hsym : Symmetric
        (fun a b : TopPriority => ¬(a.planner_id = b.planner_id ∧ a.priority_slot = b.priority_slot)) := by
      intro a b hab hcon
      exact hab ⟨hcon.1.symm, hcon.2.symm⟩
    set f := fun r : TopPriority =>
      if r.id == id1 && r.planner_id == pid && r.user_id == uid then
        { r with priority_slot := slotB }
      else r with hf
    have hm1 : f r1 ∈ applySlotUpdate rows pid uid { id := id1, newSlot := slotB } :=
      List.mem_map_of_mem f hr1
    have hm2 : f r2 ∈ applySlotUpdate rows pid uid { id := id1, newSlot := slotB } :=
      List.mem_map_of_mem f hr2
    have hfr1 : f r1 = { r1 with priority_slot := slotB } := by
      simp [hf, hid1, hp1, hu1]
    have hfr2 : f r2 = r2 := by
      have hne : ¬(r2.id = id1) := by rw [hid2]; intro hx; exact h12 hx.symm
      simp [hf, hne]
    have hne12 : f r1 ≠ f r2 := by
      rw [hfr1, hfr2]
      intro he
      have : ({ r1 with priority_slot := slotB } : TopPriority).id = r2.id := by rw [he]
      simp [hid1, hid2] at this
      exact h12 this
    have hrel := hP.forall hsym hm1 hm2 hne12
    rw [hfr1, hfr2] at hrel
    exact hrel ⟨by simpa [hp1] using hp2.symm, by simpa using hs2.symm⟩

/-- C6 witness: the amended theorem at the two concrete slot-1/slot-2 rows. -/
theorem c6_reorder_slots_sequential_witness :
    reorderPrioritySlots [prioRowA, prioRowB] ("pl1") ("u1")
        [{ id := ("pr1"), newSlot := 2 }, { id := ("pr2"), newSlot := 1 }] =
      [{ prioRowA with priority_slot := 2 }, { prioRowB with priority_slot := 1 }] ∧
    ¬ prioritySlotUnique
      (applySlotUpdate [prioRowA, prioRowB] ("pl1") ("u1") { id := ("pr1"), newSlot := 2 }) := by
  have h := c6_reorder_slots_sequential [prioRowA, prioRowB] ("pl1") ("u1")
    ("pr1") ("pr2") 1 2 prioRowA prioRowB
    (by decide) (by simp) (by simp) rfl rfl rfl rfl rfl rfl rfl
  exact ⟨by rw [h.1]; rfl, h.2⟩

-- ============================================
-- CREATE BRAIN DUMP ITEM (planner-api createBrainDumpItem)
-- ============================================

/-- The head of a descending merge sort by `order_index` is a maximum. -/
theorem mergeSortDesc_head_max (l : List BrainDumpItem) (x : BrainDumpItem)
    (hx : (l.mergeSort (fun a b => decide (b.order_index ≤ a.order_index))).head? = some x) :
    x ∈ l ∧ ∀ y ∈ l, y.order_index ≤ x.order_index := by
  have hperm := List.mergeSort_perm l (fun a b => decide (b.order_index ≤ a.order_index))
  have hpw := @List.sorted_mergeSort BrainDumpItem
    (fun a b : BrainDumpItem => decide (b.order_index ≤ a.order_index))
    (fun a b c hab hbc => by
      simp only [decide_eq_true_eq] at *
      exact le_trans hbc hab)
    (fun a b => by
      simp only [Bool.or_eq_true, decide_eq_true_eq]
      exact le_total b.order_index a.order_index)
    l
  obtain ⟨t, hs⟩ :
      ∃ t, l.mergeSort (fun a b => decide (b.order_index ≤ a.order_index)) = x :: t := by
    cases hsl : l.mergeSort (fun a b => decide (b.order_index ≤ a.order_index)) with
    | nil =>
      rw [hsl] at hx
      simp at hx
    | cons a t =>
      rw [hsl] at hx
      simp only [List.head?_cons, Option.some.injEq] at hx
      exact ⟨t, by rw [hx]⟩
  rw [hs] at hperm hpw
  constructor
  · exact hperm.mem_iff.mp (List.mem_cons_self _ _)
  · intro y hy
    have hy' : y ∈ x :: t := hperm.symm.mem_iff.mp hy
    rcases List.mem_cons.mp hy' with he | ht
    · rw [he]
    · have := (List.pairwise_cons.mp hpw).1 y ht
      simpa using this

/-- The `select order_index ... order desc limit 1` query in
`createBrainDumpItem`: the `order_index` of the planner's top item. -/
def orderIndexDescTop (items : List BrainDumpItem) (plannerId : String) : Option Int :=
  (((items.filter (fun i => i.planner_id == plannerId)).mergeSort
      (fun a b => decide (b.order_index ≤ a.order_index))).head?).map (fun i => i.order_index)

/-- Caller-supplied input of `createBrainDumpItem` (`user_id` omitted as in
the source signature). -/
structure CreateBrainDumpItemInput where
  planner_id : String
  text : String
  order_index : Option Int

/-- `createBrainDumpItem`: the new row's `order_index` is the caller's when
supplied, otherwise `(highest existing order_index ?? -1) + 1`. -/
def createBrainDumpItem (db : List BrainDumpItem) (input : CreateBrainDumpItemInput)
    (uid newId : String) : BrainDumpItem :=
  let newOrderIndex := (orderIndexDescTop db input.planner_id).getD (-1) + 1
  { id := newId, planner_id := input.planner_id, user_id := uid, text := input.text,
    is_completed := false, is_priority := false, is_scheduled := false,
    order_index := input.order_index.getD newOrderIndex }

/-- C9: `createBrainDumpItem` uses the caller-supplied sequence when one is
given; with no caller-supplied sequence it assigns 0 to the planner's first
item and otherwise the maximum existing `order_index` in that planner plus
one. -/
theorem c9_create_item_sequence (db : List BrainDumpItem)
    (input : CreateBrainDumpItemInput) (uid newId : String) :
    (∀ s, input.order_index = some s →
      (createBrainDumpItem db input uid newId).order_index = s) ∧
    (input.order_index = none →
      db.filter (fun i => i.planner_id == input.planner_id) = [] →
      (createBrainDumpItem db input uid newId).order_index = 0) ∧
    (input.order_index = none → ∀ itMax ∈ db, itMax.planner_id = input.planner_id →
      (∀ it ∈ db, it.planner_id = input.planner_id → it.order_index ≤ itMax.order_index) →
      (createBrainDumpItem db input uid newId).order_index = itMax.order_index + 1) := by
  refine ⟨?_, ?_, ?_⟩
  · intro s hs
    simp [createBrainDumpItem, hs]
  · intro hnone hempty
    simp [createBrainDumpItem, orderIndexDescTop, hnone, hempty]
  · intro hnone itMax hmem hpl hmax
    have hmemf : itMax ∈ db.filter (fun i => i.planner_id == input.planner_id) := by
      rw [List.mem_filter]
      exact ⟨hmem, by simp [hpl]⟩
    cases hs : ((db.filter (fun i => i.planner_id == input.planner_id)).mergeSort
        (fun a b => decide (b.order_index ≤ a.order_index))).head? with
    | none =>
      rw [List.head?_eq_none_iff] at hs
      have : itMax ∈ ([] : List BrainDumpItem) := by
        rw [← hs]
        exact ((List.mergeSort_perm _ _).symm.mem_iff).mp hmemf
      exact absurd this (List.not_mem_nil _)
    | some x =>
      obtain ⟨hxmem, hxmax⟩ := mergeSortDesc_head_max _ x hs
      have hx1 : x.order_index ≤ itMax.order_index := by
        rw [List.mem_filter] at hxmem
        exact hmax x hxmem.1 (by simpa using hxmem.2)
      have hx2 : itMax.order_index ≤ x.order_index := hxmax itMax hmemf
      have hxe : x.order_index = itMax.order_index := le_antisymm hx1 hx2
      simp [createBrainDumpItem, orderIndexDescTop, hnone, hs, hxe]

/-- The single pre-existing item used by the C9 witness. -/
def seedItem : BrainDumpItem :=
  { id := ("item_a"), planner_id := ("pl1"), user_id := ("u1"), text := ("write spec"),
    is_completed := false, is_priority := false, is_scheduled := false, order_index := 1 }

/-- C9 witness: with one existing item at sequence 1 and no caller-supplied
sequence, the created item gets sequence 2. -/
theorem c9_create_item_sequence_witness :
    (createBrainDumpItem [seedItem]
      { planner_id := ("pl1"), text := ("new item"), order_index := none }
      ("u1") ("item_b")).order_index = 2 := by
  have h := (c9_create_item_sequence [seedItem]
    { planner_id := ("pl1"), text := ("new item"), order_index := none }
    ("u1") ("item_b")).2.2 rfl seedItem (by simp) rfl
    (by
      intro it hit _
      rw [List.mem_singleton] at hit
      rw [hit])
  simpa using h

-- ============================================
-- SWAP PRIORITY ITEM (planner-api swapPriorityItem / upsertTopPriority)
-- ============================================

/-- `swapPriorityItem`: the PostgREST upsert on `top_priorities` with
`onConflict: planner_id,priority_slot` that the source issues.  When a row
with the conflict key exists, the supplied columns (`user_id`,
`brain_dump_item_id`, and `custom_text`, which the source always passes as
null) are written onto that row; otherwise a fresh row is inserted. -/
def swapPriorityItem (rows : List TopPriority) (plannerId uid : String)
    (prioritySlot : Nat) (brainDumpItemId : String) (newId : String) : List TopPriority :=
  if rows.any (fun r => r.planner_id == plannerId && r.priority_slot == prioritySlot) then
    rows.map (fun r =>
      if r.planner_id == plannerId && r.priority_slot == prioritySlot then
        { r with user_id := uid, brain_dump_item_id := some brainDumpItemId,
                 custom_text := none }
      else r)
  else
    rows ++ [{ id := newId, planner_id := plannerId, user_id := uid,
               priority_slot := prioritySlot,
               brain_dump_item_id := some brainDumpItemId, custom_text := none,
               is_completed := false }]

/-- One upsert keyed on the `(planner_id, priority_slot)` pair preserves
slot uniqueness. -/
theorem swapPriorityItem_slotUnique (rows : List TopPriority) (pid uid : String)
    (slot : Nat) (iid nid : String) (hu : prioritySlotUnique rows) :
    prioritySlotUnique (swapPriorityItem rows pid uid slot iid nid) := by
  rw [prioritySlotUnique] at hu ⊢
  rw [swapPriorityItem]
  by_cases hocc : (rows.any (fun r => r.planner_id == pid && r.priority_slot == slot)) = true
  · rw [if_pos hocc, List.pairwise_map]
    refine hu.imp_of_mem ?_
    intro a b _ _ hab
    by_cases ha : (a.planner_id == pid && a.priority_slot == slot) = true <;>
      by_cases hb : (b.planner_id == pid && b.priority_slot == slot) = true <;>
        simp [ha, hb] <;> intro h1 h2 <;> exact hab ⟨h1, h2⟩
  · rw [if_neg hocc]
    rw [List.pairwise_append]
    refine ⟨hu, List.pairwise_singleton _ _, ?_⟩
    intro a ha b hb
    rw [List.mem_singleton] at hb
    subst hb
    rw [Bool.not_eq_true, List.any_eq_false] at hocc
    have := hocc a ha
    simp only [Bool.and_eq_true, beq_iff_eq] at this
    intro hcon
    exact this ⟨hcon.1, hcon.2⟩

/-- C3: assigning an item to a slot with `swapPriorityItem` upserts keyed on
the `(planner, slot)` pair: uniqueness of the pair is preserved (also under
any sequence of further assignments), the slot's row afterwards references
the item with custom text cleared to null, an assignment to an occupied
slot replaces the row in place (same row count, no error), and an
assignment to a free slot inserts exactly one row. -/
theorem c3_swap_priority_upsert (rows : List TopPriority) (pid uid : String)
    (slot : Nat) (iid nid : String) (hu : prioritySlotUnique rows) :
    prioritySlotUnique (swapPriorityItem rows pid uid slot iid nid) ∧
    (∃ r ∈ swapPriorityItem rows pid uid slot iid nid,
      r.planner_id = pid ∧ r.priority_slot = slot ∧
      r.brain_dump_item_id = some iid ∧ r.custom_text = none) ∧
    (∀ r ∈ swapPriorityItem rows pid uid slot iid nid,
      r.planner_id = pid → r.priority_slot = slot →
      r.brain_dump_item_id = some iid ∧ r.custom_text = none) ∧
    ((rows.any (fun r => r.planner_id == pid && r.priority_slot == slot)) = true →
      (swapPriorityItem rows pid uid slot iid nid).length = rows.length) ∧
    ((rows.any (fun r => r.planner_id == pid && r.priority_slot == slot)) = false →
      (swapPriorityItem rows pid uid slot iid nid).length = rows.length + 1) ∧
    (∀ ops : List (Nat × String × String),
      prioritySlotUnique (ops.foldl
        (fun acc op => swapPriorityItem acc pid uid op.1 op.2.1 op.2.2) rows)) := by
  refine ⟨swapPriorityItem_slotUnique rows pid uid slot iid nid hu, ?_, ?_, ?_, ?_, ?_⟩
  · rw [swapPriorityItem]
    by_cases hocc : (rows.any (fun r => r.planner_id == pid && r.priority_slot == slot)) = true
    · rw [if_pos hocc]
      rw [List.any_eq_true] at hocc
      obtain ⟨r0, hr0, hr0k⟩ := hocc
      simp only [Bool.and_eq_true, beq_iff_eq] at hr0k
      refine ⟨_, List.mem_map_of_mem _ hr0, ?_⟩
      have hc : (r0.planner_id == pid && r0.priority_slot == slot) = true := by
        simp [hr0k.1, hr0k.2]
      rw [if_pos hc]
      exact ⟨hr0k.1, hr0k.2, rfl, rfl⟩
    · rw [if_neg hocc]
      refine ⟨_, List.mem_append_right _ (List.mem_singleton_self _), ?_⟩
      exact ⟨rfl, rfl, rfl, rfl⟩
  · rw [swapPriorityItem]
    by_cases hocc : (rows.any (fun r => r.planner_id == pid && r.priority_slot == slot)) = true
    · rw [if_pos hocc]
      intro r hr hpl hsl
      rw [List.mem_map] at hr
      obtain ⟨p, hp, hfp⟩ := hr
      by_cases hc : (p.planner_id == pid && p.priority_slot == slot) = true
      · rw [if_pos hc] at hfp
        rw [← hfp]
        exact ⟨rfl, rfl⟩
      · rw [if_neg hc] at hfp
        subst hfp
        rw [Bool.not_eq_true, Bool.and_eq_false_iff] at hc
        rcases hc with hc | hc <;> rw [beq_eq_false_iff_ne] at hc
        · exact absurd hpl hc
        · exact absurd hsl hc
    · rw [if_neg hocc]
      intro r hr hpl hsl
      rw [List.mem_append] at hr
      rcases hr with hr | hr
      · rw [Bool.not_eq_true, List.any_eq_false] at hocc
        have := hocc r hr
        simp only [Bool.and_eq_true, beq_iff_eq] at this
        exact absurd (And.intro hpl hsl) this
      · rw [List.mem_singleton] at hr
        subst hr
        exact ⟨rfl, rfl⟩
  · intro hocc
    rw [swapPriorityItem, if_pos hocc, List.length_map]
  · intro hocc
    rw [swapPriorityItem, if_neg (by rw [hocc]; exact Bool.false_ne_true), List.length_append,
      List.length_singleton]
  · intro ops
    induction ops generalizing rows with
    | nil => exact hu
    | cons op rest ih =>
      exact ih _ (swapPriorityItem_slotUnique rows pid uid op.1 op.2.1 op.2.2 hu)

/-- C3 witness: upserting item b into the occupied slot 1 replaces the
row's content in place. -/
theorem c3_swap_priority_upsert_witness :
    prioritySlotUnique (swapPriorityItem [prioRowA, prioRowB] ("pl1") ("u1") 1 ("item_b") ("pr9")) ∧
    (∃ r ∈ swapPriorityItem [prioRowA, prioRowB] ("pl1") ("u1") 1 ("item_b") ("pr9"),
      r.planner_id = ("pl1") ∧ r.priority_slot = 1 ∧
      r.brain_dump_item_id = some ("item_b") ∧ r.custom_text = none) ∧
    (swapPriorityItem [prioRowA, prioRowB] ("pl1") ("u1") 1 ("item_b") ("pr9")).length = 2 := by
  have h := c3_swap_priority_upsert [prioRowA, prioRowB] ("pl1") ("u1") 1 ("item_b") ("pr9")
    (by simp [prioritySlotUnique, prioRowA, prioRowB])
  exact ⟨h.1, h.2.1, h.2.2.2.1 (by decide)⟩

-- ============================================
-- CROSS-SECTION DRAG (dashboard handleCrossSectionDrag)
-- ============================================

/-- `handleCrossSectionDrag`: the optimistic local update the dashboard
performs when a brain-dump item is dropped on a priority slot.  If the
dragged item is unknown the handler returns unchanged state.  Otherwise the
slot's priority row (if any) is re-pointed at the dragged item — or a fresh
temporary row is appended when the slot was empty — and the `is_priority`
flags are updated: the dragged item's flag is set, and the item previously
referenced by the slot gets its flag recomputed from whether it is still
referenced by any updated priority row. -/
def handleCrossSectionDrag (plannerId uid tempId : String)
    (localBrainDump : List BrainDumpItem) (localPriorities : List TopPriority)
    (brainDumpItemId : String) (prioritySlot : Nat) :
    List BrainDumpItem × List TopPriority :=
  match localBrainDump.find? (fun i => i.id == brainDumpItemId) with
  | none => (localBrainDump, localPriorities)
  | some _ =>
    let existingPriority := localPriorities.find? (fun p => p.priority_slot == prioritySlot)
    let oldBrainDumpItemId :=
      match existingPriority with
      | some p => p.brain_dump_item_id
      | none => none
    let updatedPriorities :=
      match existingPriority with
      | some _ =>
        localPriorities.map (fun p =>
          if p.priority_slot == prioritySlot then
            { p with brain_dump_item_id := some brainDumpItemId }
          else p)
      | none =>
        localPriorities ++
          [{ id := tempId, planner_id := plannerId, user_id := uid,
             priority_slot := prioritySlot,
             brain_dump_item_id := some brainDumpItemId,
             custom_text := none, is_completed := false }]
    let updatedBrainDump := localBrainDump.map (fun item =>
      if item.id == brainDumpItemId then { item with is_priority := true }
      else
        match oldBrainDumpItemId with
        | some oldId =>
          if item.id == oldId then
            { item with is_priority :=
                updatedPriorities.any (fun p => p.brain_dump_item_id == some item.id) }
          else item
        | none => item)
    (updatedBrainDump, updatedPriorities)

/-- C1: when the drag handler assigns item `b` to a slot whose priority row
currently references a different item `a`, and `a` is referenced by no
other slot, then afterwards every local copy of `b` has `is_priority` true,
every local copy of `a` has `is_priority` false, the slot's priority row
references `b`, and no priority row was created or deleted. -/
theorem c1_cross_section_drag_reassignment
    (items : List BrainDumpItem) (prios : List TopPriority)
    (pid uid tempId aId bId : String) (slot : Nat) (itB : BrainDumpItem) (prA : TopPriority)
    (hfind : items.find? (fun i => i.id == bId) = some itB)
    (hslot : prios.find? (fun p => p.priority_slot == slot) = some prA)
    (href : prA.brain_dump_item_id = some aId)
    (honce : ∀ p ∈ prios, p.brain_dump_item_id = some aId → p.priority_slot = slot)
    (hne : aId ≠ bId) :
    (∀ it ∈ (handleCrossSectionDrag pid uid tempId items prios bId slot).1,
      it.id = bId → it.is_priority = true) ∧
    (∀ it ∈ (handleCrossSectionDrag pid uid tempId items prios bId slot).1,
      it.id = aId → it.is_priority = false) ∧
    (∀ p ∈ (handleCrossSectionDrag pid uid tempId items prios bId slot).2,
      p.priority_slot = slot → p.brain_dump_item_id = some bId) ∧
    (handleCrossSectionDrag pid uid tempId items prios bId slot).2.length = prios.length := by
  have hres : handleCrossSectionDrag pid uid tempId items prios bId slot =
      (items.map (fun item =>
        if item.id == bId then { item with is_priority := true }
        else
          match prA.brain_dump_item_id with
          | some oldId =>
            if item.id == oldId then
              { item with is_priority :=
                  (prios.map (fun p =>
                    if p.priority_slot == slot then
                      { p with brain_dump_item_id := some bId }
                    else p)).any (fun p => p.brain_dump_item_id == some item.id) }
            else item
          | none => item),
       prios.map (fun p =>
         if p.priority_slot == slot then
           { p with brain_dump_item_id := some bId }
         else p)) := by
    rw [handleCrossSectionDrag, hfind, hslot]
  have hprio : ∀ q ∈ prios.map (fun p =>
      if p.priority_slot == slot then
        { p with brain_dump_item_id := some bId }
      else p), ¬(q.brain_dump_item_id = some aId) := by
    intro q hq
    rw [List.mem_map] at hq
    obtain ⟨p, hp, hfp⟩ := hq
    by_cases hc : (p.priority_slot == slot) = true
    · rw [if_pos hc] at hfp
      rw [← hfp]
      intro hcon
      simp only [Option.some.injEq] at hcon
      exact hne hcon.symm
    · rw [if_neg hc] at hfp
      subst hfp
      intro hcon
      have := honce p hp hcon
      rw [Bool.not_eq_true, beq_eq_false_iff_ne] at hc
      exact hc this
  refine ⟨?_, ?_, ?_, ?_⟩
  · intro it hit hid
    rw [hres] at hit
    rw [List.mem_map] at hit
    obtain ⟨item, _, hfi⟩ := hit
    by_cases hc : (item.id == bId) = true
    · rw [if_pos hc] at hfi
      rw [← hfi]
    · rw [if_neg hc] at hfi
      simp only [href] at hfi
      rw [Bool.not_eq_true, beq_eq_false_iff_ne] at hc
      by_cases hc2 : (item.id == aId) = true
      · rw [if_pos hc2] at hfi
        exfalso
        apply hc
        rw [← hid, ← hfi]
      · rw [if_neg hc2] at hfi
        subst hfi
        exact absurd hid hc
  · intro it hit hid
    rw [hres] at hit
    rw [List.mem_map] at hit
    obtain ⟨item, _, hfi⟩ := hit
    by_cases hc : (item.id == bId) = true
    · rw [if_pos hc] at hfi
      exfalso
      rw [beq_iff_eq] at hc
      apply hne
      rw [← hid, ← hfi]
      exact hc
    · rw [if_neg hc] at hfi
      simp only [href] at hfi
      by_cases hc2 : (item.id == aId) = true
      · have hidq : item.id = aId := by rwa [beq_iff_eq] at hc2
        have hanyf : (prios.map (fun p =>
            if p.priority_slot == slot then
              { p with brain_dump_item_id := some bId }
            else p)).any (fun p => p.brain_dump_item_id == some item.id) = false := by
          rw [List.any_eq_false]
          intro q hq
          rw [Bool.not_eq_true, beq_eq_false_iff_ne]
          intro hcon
          rw [hidq] at hcon
          exact hprio q hq hcon
        rw [if_pos hc2, hanyf] at hfi
        rw [← hfi]
      · rw [if_neg hc2] at hfi
        subst hfi
        rw [Bool.not_eq_true, beq_eq_false_iff_ne] at hc2
        exact absurd hid hc2
  · intro q hq hqs
    rw [hres] at hq
    rw [List.mem_map] at hq
    obtain ⟨p, hp, hfp⟩ := hq
    by_cases hc : (p.priority_slot == slot) = true
    · rw [if_pos hc] at hfp
      rw [← hfp]
    · rw [if_neg hc] at hfp
      subst hfp
      rw [Bool.not_eq_true, beq_eq_false_iff_ne] at hc
      exact absurd hqs hc
  · rw [hres, List.length_map]

/-- Brain-dump item a, currently in a priority slot, for the C1 witness. -/
def dragItemA : BrainDumpItem :=
  { id := ("item_a"), planner_id := ("pl1"), user_id := ("u1"), text := ("task a"),
    is_completed := false, is_priority := true, is_scheduled := false, order_index := 0 }

/-- Brain-dump item b, dragged onto the slot, for the C1 witness. -/
def dragItemB : BrainDumpItem :=
  { id := ("item_b"), planner_id := ("pl1"), user_id := ("u1"), text := ("task b"),
    is_completed := false, is_priority := false, is_scheduled := false, order_index := 1 }

/-- C1 witness: dropping item b on slot 1, currently referencing item a,
at the concrete two-item local state. -/
theorem c1_cross_section_drag_reassignment_witness :
    (∀ it ∈ (handleCrossSectionDrag ("pl1") ("u1") ("temp-1")
        [dragItemA, dragItemB] [prioRowA] ("item_b") 1).1,
      it.id = ("item_b") → it.is_priority = true) ∧
    (∀ it ∈ (handleCrossSectionDrag ("pl1") ("u1") ("temp-1")
        [dragItemA, dragItemB] [prioRowA] ("item_b") 1).1,
      it.id = ("item_a") → it.is_priority = false) ∧
    (∀ p ∈ (handleCrossSectionDrag ("pl1") ("u1") ("temp-1")
        [dragItemA, dragItemB] [prioRowA] ("item_b") 1).2,
      p.priority_slot = 1 → p.brain_dump_item_id = some ("item_b")) ∧
    (handleCrossSectionDrag ("pl1") ("u1") ("temp-1")
        [dragItemA, dragItemB] [prioRowA] ("item_b") 1).2.length = 1 :=
  c1_cross_section_drag_reassignment [dragItemA, dragItemB] [prioRowA]
    ("pl1") ("u1") ("temp-1") ("item_a") ("item_b") 1 dragItemB prioRowA
    (by decide) (by decide) (by decide) (by decide) (by decide)

-- ============================================
-- DELETE BRAIN DUMP ITEM (planner-api deleteBrainDumpItem)
-- ============================================

/-- `deleteBrainDumpItem`: the delete issued on `brain_dump_items`, scoped
to the row's id and the requesting user. -/
def deleteBrainDumpItemRow (items : List BrainDumpItem) (itemId uid : String) :
    List BrainDumpItem :=
  items.filter (fun i => !(i.id == itemId && i.user_id == uid))

/-- Modelled from the spec: the persistence layer's reconciliation when an
Item is deleted is not under src (the source only issues the row delete;
the reference clearing lives in the database schema).  The spec fixes the
policy: "deleting an Item referenced by a Priority clears that Priority's
reference without deleting the Priority row itself". -/
def clearPriorityReferences (prios : List TopPriority) (itemId : String) :
    List TopPriority :=
  prios.map (fun p =>
    if p.brain_dump_item_id == some itemId then { p with brain_dump_item_id := none }
    else p)

/-- `deleteBrainDumpItem` together with the store-side reference clearing:
the item row is removed and every Priority row referencing it keeps its row
but loses the reference. -/
def deleteBrainDumpItem (items : List BrainDumpItem) (prios : List TopPriority)
    (itemId uid : String) : List BrainDumpItem × List TopPriority :=
  (deleteBrainDumpItemRow items itemId uid, clearPriorityReferences prios itemId)

/-- C4: deleting an Item referenced by a Priority removes the item row,
keeps every Priority row in existence (same row count, same id, slot and
custom text), and clears the reference: the referencing row survives with
its reference set to null, and afterwards no Priority references the
deleted item. -/
theorem c4_delete_item_clears_priority_reference
    (items : List BrainDumpItem) (prios : List TopPriority) (itemId uid : String)
    (p : TopPriority) (hp : p ∈ prios) (hpref : p.brain_dump_item_id = some itemId) :
    (deleteBrainDumpItem items prios itemId uid).2.length = prios.length ∧
    ({ p with brain_dump_item_id := none } ∈ (deleteBrainDumpItem items prios itemId uid).2) ∧
    (∀ q ∈ (deleteBrainDumpItem items prios itemId uid).2,
      q.brain_dump_item_id ≠ some itemId) ∧
    (∀ i ∈ (deleteBrainDumpItem items prios itemId uid).1,
      ¬(i.id = itemId ∧ i.user_id = uid)) := by
  refine ⟨List.length_map _ _, ?_, ?_, ?_⟩
  · show _ ∈ prios.map _
    rw [List.mem_map]
    refine ⟨p, hp, ?_⟩
    rw [if_pos (by simp [hpref])]
  · intro q hq
    rw [show (deleteBrainDumpItem items prios itemId uid).2 =
      clearPriorityReferences prios itemId from rfl, clearPriorityReferences,
      List.mem_map] at hq
    obtain ⟨r, _, hfr⟩ := hq
    by_cases hc : (r.brain_dump_item_id == some itemId) = true
    · rw [if_pos hc] at hfr
      rw [← hfr]
      simp
    · rw [if_neg hc] at hfr
      subst hfr
      rw [Bool.not_eq_true, beq_eq_false_iff_ne] at hc
      exact hc
  · intro i hi
    rw [show (deleteBrainDumpItem items prios itemId uid).1 =
      deleteBrainDumpItemRow items itemId uid from rfl, deleteBrainDumpItemRow,
      List.mem_filter] at hi
    obtain ⟨_, hcond⟩ := hi
    intro hcon
    rw [hcon.1, hcon.2] at hcond
    simp at hcond

/-- C4 witness: deleting item a, referenced by the slot-1 priority row. -/
theorem c4_delete_item_clears_priority_reference_witness :
    (deleteBrainDumpItem [dragItemA] [prioRowA] ("item_a") ("u1")).2.length = 1 ∧
    ({ prioRowA with brain_dump_item_id := none } ∈
      (deleteBrainDumpItem [dragItemA] [prioRowA] ("item_a") ("u1")).2) ∧
    (∀ q ∈ (deleteBrainDumpItem [dragItemA] [prioRowA] ("item_a") ("u1")).2,
      q.brain_dump_item_id ≠ some ("item_a")) ∧
    (∀ i ∈ (deleteBrainDumpItem [dragItemA] [prioRowA] ("item_a") ("u1")).1,
      ¬(i.id = ("item_a") ∧ i.user_id = ("u1"))) :=
  c4_delete_item_clears_priority_reference [dragItemA] [prioRowA] ("item_a") ("u1")
    prioRowA (by decide) (by decide)

-- ============================================
-- TIME BLOCKS (planner-api createTimeBlock / updateTimeBlock)
-- ============================================

/-- Caller-supplied input of `createTimeBlock` (`user_id` omitted as in the
source signature). -/
structure CreateTimeBlockInput where
  planner_id : String
  start_time : String
  end_time : String
  brain_dump_item_id : Option String
  custom_text : Option String
  color_tag : String
  notes : Option String

/-- Modelled from the spec: the persistence store's TimeBlock time
invariant, "end time strictly after start time", which is schema-level code
not under src — `createTimeBlock` itself performs no time validation. The
spec also fixes that the store checks nothing else about times: "the core
does not enforce non-overlap". -/
def timeBlockTimesAllowed (startTime endTime : String) : Bool :=
  match timeToMinutes startTime, timeToMinutes endTime with
  | some s, some e => decide (s < e)
  | _, _ => false

/-- `createTimeBlock`: inserts the block as given; the outcome depends only
on the store's acceptance of the single new row (no other row is read, so
no overlap check is possible). -/
def createTimeBlock (existingBlocks : List TimeBlock) (input : CreateTimeBlockInput)
    (uid newId : String) : Except String TimeBlock :=
  if timeBlockTimesAllowed input.start_time input.end_time then
    .ok { id := newId, planner_id := input.planner_id, user_id := uid,
          start_time := input.start_time, end_time := input.end_time,
          brain_dump_item_id := input.brain_dump_item_id,
          custom_text := input.custom_text, color_tag := input.color_tag,
          notes := input.notes, is_completed := false }
  else .error ("Failed to create time block")

/-- `updateTimeBlock` restricted to a time change: writes the new times
onto the row, subject to the same store-side time invariant. -/
def updateTimeBlockTimes (block : TimeBlock) (newStart newEnd : String) :
    Except String TimeBlock :=
  if timeBlockTimesAllowed newStart newEnd then
    .ok { block with start_time := newStart, end_time := newEnd }
  else .error ("Failed to update time block")

/-- C8: every TimeBlock accepted by `createTimeBlock` or
`updateTimeBlockTimes` has its end time strictly after its start time,
while overlap is never rejected: the outcome of `createTimeBlock` is
entirely independent of the existing blocks, and in particular an input
overlapping existing blocks is accepted whenever its own times are valid. -/
theorem c8_time_block_validation (existing : List TimeBlock)
    (input : CreateTimeBlockInput) (uid newId : String) :
    (∀ b, createTimeBlock existing input uid newId = .ok b →
      ∃ s e, timeToMinutes b.start_time = some s ∧
        timeToMinutes b.end_time = some e ∧ s < e) ∧
    (createTimeBlock existing input uid newId = createTimeBlock [] input uid newId) ∧
    (hasTimeOverlap input.start_time input.end_time existing = true →
      timeBlockTimesAllowed input.start_time input.end_time = true →
      ∃ b, createTimeBlock existing input uid newId = .ok b) ∧
    (∀ blk newStart newEnd b, updateTimeBlockTimes blk newStart newEnd = .ok b →
      ∃ s e, timeToMinutes b.start_time = some s ∧
        timeToMinutes b.end_time = some e ∧ s < e) := by
  have hkey : ∀ startTime endTime : String,
      timeBlockTimesAllowed startTime endTime = true →
      ∃ s e, timeToMinutes startTime = some s ∧ timeToMinutes endTime = some e ∧ s < e := by
    intro startTime endTime hall
    rw [timeBlockTimesAllowed] at hall
    cases hs : timeToMinutes startTime with
    | none => rw [hs] at hall; cases timeToMinutes endTime <;> simp at hall
    | some s =>
      cases he : timeToMinutes endTime with
      | none => rw [hs, he] at hall; simp at hall
      | some e =>
        rw [hs, he] at hall
        exact ⟨s, e, rfl, rfl, of_decide_eq_true hall⟩
  refine ⟨?_, rfl, ?_, ?_⟩
  · intro b hb
    rw [createTimeBlock] at hb
    by_cases hall : timeBlockTimesAllowed input.start_time input.end_time = true
    · rw [if_pos hall] at hb
      obtain ⟨s, e, hs, he, hlt⟩ := hkey _ _ hall
      injection hb with hb
      rw [← hb]
      exact ⟨s, e, hs, he, hlt⟩
    · rw [if_neg hall] at hb
      exact absurd hb (by simp)
  · intro _ hall
    rw [createTimeBlock, if_pos hall]
    exact ⟨_, rfl⟩
  · intro blk newStart newEnd b hb
    rw [updateTimeBlockTimes] at hb
    by_cases hall : timeBlockTimesAllowed newStart newEnd = true
    · rw [if_pos hall] at hb
      obtain ⟨s, e, hs, he, hlt⟩ := hkey _ _ hall
      injection hb with hb
      rw [← hb]
      exact ⟨s, e, hs, he, hlt⟩
    · rw [if_neg hall] at hb
      exact absurd hb (by simp)

/-- A 09:00-10:00 block already on the schedule, for the C8 witness. -/
def blockNine : TimeBlock :=
  { id := ("tb1"), planner_id := ("pl1"), user_id := ("u1"),
    start_time := ("09:00:00"), end_time := ("10:00:00"),
    brain_dump_item_id := some ("item_a"), custom_text := none,
    color_tag := ("blue"), notes := none, is_completed := false }

/-- A 09:30-10:30 input overlapping `blockNine`, for the C8 witness. -/
def overlappingInput : CreateTimeBlockInput :=
  { planner_id := ("pl1"), start_time := ("09:30:00"), end_time := ("10:30:00"),
    brain_dump_item_id := some ("item_a"), custom_text := none,
    color_tag := ("teal"), notes := none }

/-- C8 witness: a block overlapping an existing one is accepted. -/
theorem c8_time_block_validation_witness :
    hasTimeOverlap (("09:30:00")) (("10:30:00")) [blockNine] = true ∧
    ∃ b, createTimeBlock [blockNine] overlappingInput ("u1") ("tb2") = .ok b :=
  ⟨by decide,
    (c8_time_block_validation [blockNine] overlappingInput ("u1") ("tb2")).2.2.1
      (by decide) (by decide)⟩

-- ============================================
-- GET FULL PLANNER (planner-api getFullPlanner, manual-join variant)
-- ============================================

/-- Generic fact about the query embedding: a merge sort by a key yields a
list pairwise ordered by that key. -/
theorem mergeSort_sorted_by {α β : Type} [LinearOrder β] (key : α → β) (l : List α) :
    (l.mergeSort (fun a b => decide (key a ≤ key b))).Pairwise (fun a b => key a ≤ key b) := by
  have h := @List.sorted_mergeSort α (fun a b => decide (key a ≤ key b))
    (fun a b c hab hbc => by
      simp only [decide_eq_true_eq] at *
      exact le_trans hab hbc)
    (fun a b => by
      simp only [Bool.or_eq_true, decide_eq_true_eq]
      exact le_total (key a) (key b))
    l
  exact h.imp (fun hr => of_decide_eq_true hr)

/-- In a list of items with pairwise-distinct ids, filtering on the id of a
member yields exactly that member. -/
theorem filter_id_eq_singleton (l : List BrainDumpItem) (iid : String)
    (it : BrainDumpItem) (hnd : (l.map (fun i => i.id)).Nodup)
    (hmem : it ∈ l) (hid : it.id = iid) :
    l.filter (fun i => i.id == iid) = [it] := by
  induction l with
  | nil => exact absurd hmem (List.not_mem_nil _)
  | cons a t ih =>
    rw [List.map_cons, List.nodup_cons] at hnd
    obtain ⟨hna, hndt⟩ := hnd
    rcases List.mem_cons.mp hmem with he | ht
    · subst he
      rw [List.filter_cons, if_pos (by simp [hid])]
      have htnil : t.filter (fun i => i.id == iid) = [] := by
        rw [List.filter_eq_nil]
        intro x hx
        rw [Bool.not_eq_true, beq_eq_false_iff_ne]
        intro hxe
        apply hna
        rw [hid, ← hxe]
        exact List.mem_map_of_mem _ hx
      rw [htnil]
    · have hane : ¬((a.id == iid) = true) := by
        rw [Bool.not_eq_true, beq_eq_false_iff_ne]
        intro hae
        apply hna
        rw [hae, ← hid]
        exact List.mem_map_of_mem _ ht
      rw [List.filter_cons, if_neg hane]
      exact ih hndt ht

/-- The `brain_dump_items` query of `getFullPlanner`: the planner's items
ordered by `order_index` ascending. -/
def plannerBrainDumpRows (db : List BrainDumpItem) (plannerId : String) :
    List BrainDumpItem :=
  (db.filter (fun i => i.planner_id == plannerId)).mergeSort
    (fun a b => decide (a.order_index ≤ b.order_index))

/-- The `top_priorities` query of `getFullPlanner`: the planner's priority
rows ordered by `priority_slot` ascending. -/
def plannerPriorityRows (db : List TopPriority) (plannerId : String) :
    List TopPriority :=
  (db.filter (fun p => p.planner_id == plannerId)).mergeSort
    (fun a b => decide (a.priority_slot ≤ b.priority_slot))

/-- The `time_blocks` query of `getFullPlanner`: the planner's blocks
ordered by `start_time` ascending. -/
def plannerTimeBlockRows (db : List TimeBlock) (plannerId : String) :
    List TimeBlock :=
  (db.filter (fun b => b.planner_id == plannerId)).mergeSort
    (fun a b => decide (a.start_time ≤ b.start_time))

/-- The lookup map `brainDumpMap` of `getFullPlanner`: a JS `Map` built
from `(item.id, item)` pairs in list order, so `get` returns the most
recently inserted entry with the key, or nothing. -/
def brainDumpMapGet (items : List BrainDumpItem) (key : String) : Option BrainDumpItem :=
  (items.filter (fun i => i.id == key)).getLast?

/-- A priority row with its manually joined item payload. -/
structure TopPriorityView where
  row : TopPriority
  brain_dump_item : Option BrainDumpItem
deriving DecidableEq

/-- A time block with its manually joined item payload. -/
structure TimeBlockView where
  row : TimeBlock
  brain_dump_item : Option BrainDumpItem
deriving DecidableEq

/-- The three backing tables read by `getFullPlanner`. -/
structure PlannerDb where
  brain_dump_items : List BrainDumpItem
  top_priorities : List TopPriority
  time_blocks : List TimeBlock

/-- The assembled planner returned by `getFullPlanner`. -/
structure FullPlanner where
  brain_dump_items : List BrainDumpItem
  top_priorities : List TopPriorityView
  time_blocks : List TimeBlockView

/-- `getFullPlanner`: runs the three ordered queries and performs the
manual join, attaching to every priority and time block the brain-dump
item its reference resolves to in the lookup map (absent when the row has
no reference or the reference misses the map). -/
def getFullPlanner (db : PlannerDb) (plannerId : String) : FullPlanner :=
  let brainDumpRows := plannerBrainDumpRows db.brain_dump_items plannerId
  { brain_dump_items := brainDumpRows,
    top_priorities :=
      (plannerPriorityRows db.top_priorities plannerId).map (fun p =>
        { row := p,
          brain_dump_item :=
            match p.brain_dump_item_id with
            | some iid => brainDumpMapGet brainDumpRows iid
            | none => none }),
    time_blocks :=
      (plannerTimeBlockRows db.time_blocks plannerId).map (fun b =>
        { row := b,
          brain_dump_item :=
            match b.brain_dump_item_id with
            | some iid => brainDumpMapGet brainDumpRows iid
            | none => none }) }

/-- Resolution of one reference against the planner's items: misses
resolve to nothing, and a unique matching planner item is found. -/
theorem brainDumpMapGet_spec (db : List BrainDumpItem) (pid iid : String)
    (hnd : (db.map (fun i => i.id)).Nodup) :
    ((∀ it ∈ db, it.planner_id = pid → it.id ≠ iid) →
      brainDumpMapGet (plannerBrainDumpRows db pid) iid = none) ∧
    (∀ it ∈ db, it.planner_id = pid → it.id = iid →
      brainDumpMapGet (plannerBrainDumpRows db pid) iid = some it) := by
  have hperm : (plannerBrainDumpRows db pid).Perm (db.filter (fun i => i.planner_id == pid)) :=
    List.mergeSort_perm _ _
  constructor
  · intro hmiss
    rw [brainDumpMapGet]
    have hnilf : (plannerBrainDumpRows db pid).filter (fun i => i.id == iid) = [] := by
      rw [List.filter_eq_nil]
      intro x hx
      have hxf : x ∈ db.filter (fun i => i.planner_id == pid) := hperm.mem_iff.mp hx
      rw [List.mem_filter] at hxf
      rw [Bool.not_eq_true, beq_eq_false_iff_ne]
      exact hmiss x hxf.1 (by simpa using hxf.2)
    rw [hnilf]
    rfl
  · intro it hmem hpl hid
    rw [brainDumpMapGet]
    have hndf : ((db.filter (fun i => i.planner_id == pid)).map (fun i => i.id)).Nodup :=
      hnd.sublist (List.Sublist.map _ (List.filter_sublist _))
    have hmemf : it ∈ db.filter (fun i => i.planner_id == pid) := by
      rw [List.mem_filter]
      exact ⟨hmem, by simp [hpl]⟩
    have hsing : (db.filter (fun i => i.planner_id == pid)).filter
        (fun i => i.id == iid) = [it] :=
      filter_id_eq_singleton _ iid it hndf hmemf hid
    have hpermf := hperm.filter (fun i => i.id == iid)
    rw [hsing] at hpermf
    rw [List.perm_singleton.mp hpermf]
    rfl

/-- The assembly contract of `getFullPlanner`: items ordered by sequence,
priorities by slot, blocks by start time (each exactly the planner's rows),
and every reference joined to the item it resolves to, with misses
resolving to an absent payload rather than failing. -/
def fullPlannerAssemblySpec (db : PlannerDb) (pid : String) : Prop :=
  (getFullPlanner db pid).brain_dump_items.Pairwise
    (fun a b => a.order_index ≤ b.order_index) ∧
  (getFullPlanner db pid).brain_dump_items.Perm
    (db.brain_dump_items.filter (fun i => i.planner_id == pid)) ∧
  ((getFullPlanner db pid).top_priorities.map (fun v => v.row)).Pairwise
    (fun a b => a.priority_slot ≤ b.priority_slot) ∧
  ((getFullPlanner db pid).top_priorities.map (fun v => v.row)).Perm
    (db.top_priorities.filter (fun p => p.planner_id == pid)) ∧
  ((getFullPlanner db pid).time_blocks.map (fun v => v.row)).Pairwise
    (fun a b => a.start_time ≤ b.start_time) ∧
  ((getFullPlanner db pid).time_blocks.map (fun v => v.row)).Perm
    (db.time_blocks.filter (fun b => b.planner_id == pid)) ∧
  (∀ v ∈ (getFullPlanner db pid).top_priorities,
    (v.row.brain_dump_item_id = none → v.brain_dump_item = none) ∧
    (∀ iid, v.row.brain_dump_item_id = some iid →
      ((∀ it ∈ db.brain_dump_items, it.planner_id = pid → it.id ≠ iid) →
        v.brain_dump_item = none) ∧
      (∀ it ∈ db.brain_dump_items, it.planner_id = pid → it.id = iid →
        v.brain_dump_item = some it))) ∧
  (∀ v ∈ (getFullPlanner db pid).time_blocks,
    (v.row.brain_dump_item_id = none → v.brain_dump_item = none) ∧
    (∀ iid, v.row.brain_dump_item_id = some iid →
      ((∀ it ∈ db.brain_dump_items, it.planner_id = pid → it.id ≠ iid) →
        v.brain_dump_item = none) ∧
      (∀ it ∈ db.brain_dump_items, it.planner_id = pid → it.id = iid →
        v.brain_dump_item = some it)))

/-- C7: `getFullPlanner` returns the planner's items ordered by sequence
ascending, priorities ordered by slot ascending and time blocks ordered by
start time ascending, with every priority's and block's item reference
resolved by the assembly-layer join to the actual item payload; a
reference to an item absent from the lookup is returned unresolved (absent
payload) instead of failing the assembly. -/
theorem c7_get_full_planner_assembly (db : PlannerDb) (pid : String)
    (hnd : (db.brain_dump_items.map (fun i => i.id)).Nodup) :
    fullPlannerAssemblySpec db pid := by
  have hprows : ((getFullPlanner db pid).top_priorities.map (fun v => v.row)) =
      plannerPriorityRows db.top_priorities pid := by
    show (List.map _ _).map _ = _
    rw [List.map_map]
    exact List.map_id _
  have htrows : ((getFullPlanner db pid).time_blocks.map (fun v => v.row)) =
      plannerTimeBlockRows db.time_blocks pid := by
    show (List.map _ _).map _ = _
    rw [List.map_map]
    exact List.map_id _
  refine ⟨?_, ?_, ?_, ?_, ?_, ?_, ?_, ?_⟩
  · exact mergeSort_sorted_by (fun i : BrainDumpItem => i.order_index) _
  · exact List.mergeSort_perm _ _
  · rw [hprows]
    exact mergeSort_sorted_by (fun p : TopPriority => p.priority_slot) _
  · rw [hprows]
    exact List.mergeSort_perm _ _
  · rw [htrows]
    exact mergeSort_sorted_by (fun b : TimeBlock => b.start_time) _
  · rw [htrows]
    exact List.mergeSort_perm _ _
  · intro v hv
    rw [show (getFullPlanner db pid).top_priorities =
      (plannerPriorityRows db.top_priorities pid).map (fun p =>
        ({ row := p,
           brain_dump_item :=
             match p.brain_dump_item_id with
             | some iid => brainDumpMapGet (plannerBrainDumpRows db.brain_dump_items pid) iid
             | none => none } : TopPriorityView)) from rfl, List.mem_map] at hv
    obtain ⟨p, _, hfp⟩ := hv
    have hrow : v.row = p := by rw [← hfp]
    have hitem : v.brain_dump_item =
        match p.brain_dump_item_id with
        | some iid => brainDumpMapGet (plannerBrainDumpRows db.brain_dump_items pid) iid
        | none => none := by
      rw [← hfp]
    refine ⟨?_, ?_⟩
    · intro h
      rw [hrow] at h
      rw [hitem, h]
    · intro iid hiid
      rw [hrow] at hiid
      refine ⟨?_, ?_⟩
      · intro hmiss
        rw [hitem, hiid]
        exact (brainDumpMapGet_spec db.brain_dump_items pid iid hnd).1 hmiss
      · intro it hit hitpl hitid
        rw [hitem, hiid]
        exact (brainDumpMapGet_spec db.brain_dump_items pid iid hnd).2 it hit hitpl hitid
  · intro v hv
    rw [show (getFullPlanner db pid).time_blocks =
      (plannerTimeBlockRows db.time_blocks pid).map (fun b =>
        ({ row := b,
           brain_dump_item :=
             match b.brain_dump_item_id with
             | some iid => brainDumpMapGet (plannerBrainDumpRows db.brain_dump_items pid) iid
             | none => none } : TimeBlockView)) from rfl, List.mem_map] at hv
    obtain ⟨b, _, hfb⟩ := hv
    have hrow : v.row = b := by rw [← hfb]
    have hitem : v.brain_dump_item =
        match b.brain_dump_item_id with
        | some iid => brainDumpMapGet (plannerBrainDumpRows db.brain_dump_items pid) iid
        | none => none := by
      rw [← hfb]
    refine ⟨?_, ?_⟩
    · intro h
      rw [hrow] at h
      rw [hitem, h]
    · intro iid hiid
      rw [hrow] at hiid
      refine ⟨?_, ?_⟩
      · intro hmiss
        rw [hitem, hiid]
        exact (brainDumpMapGet_spec db.brain_dump_items pid iid hnd).1 hmiss
      · intro it hit hitpl hitid
        rw [hitem, hiid]
        exact (brainDumpMapGet_spec db.brain_dump_items pid iid hnd).2 it hit hitpl hitid

/-- Backing tables for the C7 witness: two items stored out of sequence
order, two priority rows stored out of slot order, one time block. -/
def sampleDb : PlannerDb :=
  { brain_dump_items := [dragItemB, dragItemA],
    top_priorities := [prioRowB, prioRowA],
    time_blocks := [blockNine] }

/-- C7 witness: the assembly contract at the concrete backing tables. -/
theorem c7_get_full_planner_assembly_witness :
    fullPlannerAssemblySpec sampleDb ("pl1") :=
  c7_get_full_planner_assembly sampleDb ("pl1") (by decide)
